import Mathlib

/-!
Shallow embedding of the mautrix-go crypto core:
the libolm pickle codec for ratchet chain types
(crypto/goolm/ratchet/chain.go, crypto/goolm/ratchet/skipped_message.go)
and the key-backup trust and import pipeline (crypto/keybackup.go).

Byte buffers are modelled as `List Nat`; Go slice writes such as
`f(target[w:])` are modelled by splitting the list at offset `w`,
transforming the suffix and reassembling.  `uint32` values are modelled
as `Nat` with arithmetic taken modulo `2 ^ 32` where the Go code can
overflow.  Go methods that mutate their pointer receiver are modelled as
functions returning the updated receiver next to the Go return values,
so that partial mutation before an error return is visible.
-/

namespace Mautrix

/-- The pickle error values that matter here (olm.ErrValueTooShort). -/
inductive PickleError where
  | valueTooShort
  deriving DecidableEq, Repr

abbrev Bytes := List Nat

/-- Modelled from the spec: libolmpickle.PickleBytes is not under src.
Per section 4.1 fixed-length material is copied verbatim at offset 0 of the
target; Go copy semantics copy `min` of the two lengths and return the
number of bytes copied. -/
def PickleBytes (value target : Bytes) : Nat × Bytes :=
  (min value.length target.length,
   value.take target.length ++ target.drop value.length)

/-- Modelled from the spec: libolmpickle.UnpickleBytes is not under src.
Reads exactly `length` bytes from the front, failing when the buffer is
truncated. -/
def UnpickleBytes (value : Bytes) (length : Nat) :
    Except PickleError (Bytes × Nat) :=
  if value.length < length then .error .valueTooShort
  else .ok (value.take length, length)

/-- Modelled from the spec: libolmpickle.PickleUInt32Length is not under
src; a 32-bit counter occupies a fixed-width 4-byte slot. -/
def PickleUInt32Length : Nat := 4

/-- Big-endian 4-byte encoding of a 32-bit value. -/
def uint32BE (v : Nat) : Bytes :=
  [v / 2 ^ 24 % 256, v / 2 ^ 16 % 256, v / 2 ^ 8 % 256, v % 256]

/-- Big-endian decoding of the first four bytes. -/
def uint32BEDecode (value : Bytes) : Nat :=
  (value.take 4).foldl (fun a b => a * 256 + b) 0

/-- Modelled from the spec: libolmpickle.PickleUInt32 is not under src.
Writes the 32-bit counter big-endian into the first 4 bytes of the target
and returns 4. -/
def PickleUInt32 (v : Nat) (target : Bytes) : Nat × Bytes :=
  (4, uint32BE v ++ target.drop 4)

/-- Modelled from the spec: libolmpickle.UnpickleUInt32 is not under src.
Reads a big-endian 32-bit counter from the first 4 bytes, failing when
the buffer is truncated. -/
def UnpickleUInt32 (value : Bytes) : Except PickleError (Nat × Nat) :=
  if value.length < 4 then .error .valueTooShort
  else .ok (uint32BEDecode value, 4)

/-- crypto.Curve25519PubKeyLength (32 bytes). -/
def Curve25519PubKeyLength : Nat := 32

abbrev Curve25519PublicKey := Bytes

/-- Modelled from the spec: crypto.Curve25519PublicKey.PickleLibOlm is not
under src.  Per section 4.1, fixed-length key material is copied verbatim;
key material of the wrong length is replaced by a same-length all-zero
placeholder.  Fails when the target is shorter than 32 bytes. -/
def Curve25519PublicKey.PickleLibOlm (c : Curve25519PublicKey)
    (target : Bytes) : Except PickleError (Nat × Bytes) :=
  if target.length < Curve25519PubKeyLength then .error .valueTooShort
  else if c.length ≠ Curve25519PubKeyLength then
    .ok (PickleBytes (List.replicate Curve25519PubKeyLength 0) target)
  else
    .ok (PickleBytes c target)

/-- Modelled from the spec: crypto.Curve25519PublicKey.UnpickleLibOlm is
not under src.  Reads exactly 32 bytes into the key. -/
def Curve25519PublicKey.UnpickleLibOlm (value : Bytes) :
    Except PickleError (Curve25519PublicKey × Nat) :=
  UnpickleBytes value Curve25519PubKeyLength

/-- chain.go: chainKeySeed. -/
def chainKeySeed : Nat := 0x02

/-- chain.go: messageKeyLength. -/
def messageKeyLength : Nat := 32

/-- chain.go: chainKey wraps the index and the key. -/
structure chainKey where
  Index : Nat
  Key : Curve25519PublicKey
  deriving DecidableEq, Repr

/-- chain.go: chainKeyPickleLength = Curve25519PubKeyLength +
PickleUInt32Length. -/
def chainKeyPickleLength : Nat :=
  Curve25519PubKeyLength + PickleUInt32Length

/-- chain.go lines 26-29: advance replaces the key by
HMACSHA256(key, [chainKeySeed]) and increments the uint32 index.
crypto.HMACSHA256 is not under src, so the HMAC function is an explicit
parameter of the model; the uint32 increment wraps modulo 2^32. -/
def chainKey.advance (hmac : Bytes → Bytes → Bytes) (c : chainKey) :
    chainKey :=
  { Key := hmac c.Key [chainKeySeed], Index := (c.Index + 1) % 2 ^ 32 }

/-- chain.go lines 32-45: chainKey.UnpickleLibOlm.  Returns the
(possibly partially) updated receiver together with the Go results. -/
def chainKey.UnpickleLibOlm (r : chainKey) (value : Bytes) :
    chainKey × Except PickleError Nat :=
  match Curve25519PublicKey.UnpickleLibOlm value with
  | .error e => (r, .error e)
  | .ok (newKey, readBytes) =>
    let r1 := { r with Key := newKey }
    match UnpickleUInt32 (value.drop readBytes) with
    | .error e => (r1, .error e)
    | .ok (idx, readBytes2) =>
      ({ r1 with Index := idx }, .ok (readBytes + readBytes2))

/-- chain.go lines 49-59: chainKey.PickleLibOlm.  The key is written at
offset 0 and the index at offset `written` (the Go code passes
target[written:]). -/
def chainKey.PickleLibOlm (r : chainKey) (target : Bytes) :
    Except PickleError (Nat × Bytes) :=
  if target.length < chainKeyPickleLength then .error .valueTooShort
  else
    match Curve25519PublicKey.PickleLibOlm r.Key target with
    | .error e => .error e
    | .ok (written, t1) =>
      let (w2, rest) := PickleUInt32 r.Index (t1.drop written)
      .ok (written + w2, t1.take written ++ rest)

/-- chain.go: receiverChain wraps the ratchet public key and a chain
key. -/
structure receiverChain where
  RKey : Curve25519PublicKey
  CKey : chainKey
  deriving DecidableEq, Repr

/-- chain.go: receiverChainPickleLength. -/
def receiverChainPickleLength : Nat :=
  Curve25519PubKeyLength + chainKeyPickleLength

/-- chain.go lines 168-181: receiverChain.UnpickleLibOlm. -/
def receiverChain.UnpickleLibOlm (r : receiverChain) (value : Bytes) :
    receiverChain × Except PickleError Nat :=
  match Curve25519PublicKey.UnpickleLibOlm value with
  | .error e => (r, .error e)
  | .ok (newRKey, readBytes) =>
    let r1 := { r with RKey := newRKey }
    let (ck, res) := r1.CKey.UnpickleLibOlm (value.drop readBytes)
    match res with
    | .error e => ({ r1 with CKey := ck }, .error e)
    | .ok readBytes2 => ({ r1 with CKey := ck }, .ok (readBytes + readBytes2))

/-- chain.go lines 185-199: receiverChain.PickleLibOlm.  NOTE: the source
passes `target` (not `target[written:]`) to the chain-key pickle, so the
chain key is written from offset 0, over the ratchet key; the model keeps
that behaviour. -/
def receiverChain.PickleLibOlm (r : receiverChain) (target : Bytes) :
    Except PickleError (Nat × Bytes) :=
  if target.length < receiverChainPickleLength then .error .valueTooShort
  else
    match Curve25519PublicKey.PickleLibOlm r.RKey target with
    | .error e => .error e
    | .ok (written, t1) =>
      match r.CKey.PickleLibOlm t1 with
      | .error e => .error e
      | .ok (writtenChain, t2) => .ok (written + writtenChain, t2)

/-- chain.go: messageKey wraps the index and the key of a message. -/
structure messageKey where
  Index : Nat
  Key : Bytes
  deriving DecidableEq, Repr

/-- chain.go: messageKeyPickleLength. -/
def messageKeyPickleLength : Nat :=
  messageKeyLength + PickleUInt32Length

/-- chain.go lines 211-226: messageKey.UnpickleLibOlm.  NOTE: the source
reads the uint32 index from `value[:curPos]` (the front of the buffer,
inside the key bytes), not from `value[curPos:]`; the model keeps that
behaviour. -/
def messageKey.UnpickleLibOlm (m : messageKey) (value : Bytes) :
    messageKey × Except PickleError Nat :=
  match UnpickleBytes value messageKeyLength with
  | .error e => (m, .error e)
  | .ok (ratchetKey, readBytes) =>
    let m1 := { m with Key := ratchetKey }
    match UnpickleUInt32 (value.take readBytes) with
    | .error e => (m1, .error e)
    | .ok (keyID, readBytes2) =>
      ({ m1 with Index := keyID }, .ok (readBytes + readBytes2))

/-- chain.go lines 230-242: messageKey.PickleLibOlm.  A key whose length
is not messageKeyLength is replaced by an all-zero placeholder. -/
def messageKey.PickleLibOlm (m : messageKey) (target : Bytes) :
    Except PickleError (Nat × Bytes) :=
  if target.length < messageKeyPickleLength then .error .valueTooShort
  else
    let (w1, t1) :=
      if m.Key.length ≠ messageKeyLength then
        PickleBytes (List.replicate messageKeyLength 0) target
      else
        PickleBytes m.Key target
    let (w2, rest) := PickleUInt32 m.Index (t1.drop w1)
    .ok (w1 + w2, t1.take w1 ++ rest)

/-- skipped_message.go: skippedMessageKey. -/
structure skippedMessageKey where
  RKey : Curve25519PublicKey
  MKey : messageKey
  deriving DecidableEq, Repr

/-- skipped_message.go: skippedMessageKeyPickleLen. -/
def skippedMessageKeyPickleLen : Nat :=
  Curve25519PubKeyLength + messageKeyPickleLength

/-- skipped_message.go lines 20-33: skippedMessageKey.UnpickleLibOlm. -/
def skippedMessageKey.UnpickleLibOlm (r : skippedMessageKey)
    (value : Bytes) : skippedMessageKey × Except PickleError Nat :=
  match Curve25519PublicKey.UnpickleLibOlm value with
  | .error e => (r, .error e)
  | .ok (newRKey, readBytes) =>
    let r1 := { r with RKey := newRKey }
    let (mkey, res) := r1.MKey.UnpickleLibOlm (value.drop readBytes)
    match res with
    | .error e => ({ r1 with MKey := mkey }, .error e)
    | .ok readBytes2 =>
      ({ r1 with MKey := mkey }, .ok (readBytes + readBytes2))

/-- skipped_message.go lines 37-51: skippedMessageKey.PickleLibOlm.
NOTE: the source passes `target` (not `target[written:]`) to the
message-key pickle, so the message key is written from offset 0, over the
ratchet key; the model keeps that behaviour. -/
def skippedMessageKey.PickleLibOlm (r : skippedMessageKey)
    (target : Bytes) : Except PickleError (Nat × Bytes) :=
  if target.length < skippedMessageKeyPickleLen then .error .valueTooShort
  else
    match Curve25519PublicKey.PickleLibOlm r.RKey target with
    | .error e => .error e
    | .ok (written, t1) =>
      match r.MKey.PickleLibOlm t1 with
      | .error e => .error e
      | .ok (writtenChain, t2) => .ok (written + writtenChain, t2)

/-! ## Key backup trust and import (crypto/keybackup.go)

The OlmMachine methods are modelled as functions over an explicit
environment record carrying the collaborator calls (network client,
crypto store, state store, signature verification, libolm import).
Those collaborators are not under src, so they appear as opaque function
fields; the control flow of keybackup.go itself is translated
faithfully. -/

/-- Outcome of a Go call that can also panic at runtime (a nil pointer
dereference), in addition to returning a value or an error. -/
inductive GoResult (α : Type) where
  | ok : α → GoResult α
  | err : String → GoResult α
  | panicked : String → GoResult α
  deriving DecidableEq, Repr

/-- A signature key identifier as produced by id.KeyID.Parse:
an algorithm and a key name. -/
structure KeyID where
  alg : String
  name : String
  deriving DecidableEq, Repr

/-- backup.MegolmAuthData as used by keybackup.go: the claimed public key
and the signature map, user id to the list of key ids that carry a
signature (signature values themselves are consumed only by the opaque
verification call in the environment).  The list order stands for one
iteration order of the Go map. -/
structure MegolmAuthData where
  PublicKey : String
  Signatures : List (String × List KeyID)
  deriving DecidableEq, Repr

/-- mautrix.RespRoomKeysVersion with backup.MegolmAuthData. -/
structure RespRoomKeysVersion where
  Algorithm : String
  AuthData : MegolmAuthData
  Version : String
  deriving DecidableEq, Repr

/-- The part of id.Device that keybackup.go touches. -/
structure Device where
  SigningKey : String
  deriving DecidableEq, Repr

/-- id.KeyBackupAlgorithmMegolmBackupV1. -/
def KeyBackupAlgorithmMegolmBackupV1 : String :=
  "m.megolm_backup.v1.curve25519-aes-sha2"

/-- id.AlgorithmMegolmV1. -/
def AlgorithmMegolmV1 : String := "m.megolm.v1.aes-sha2"

/-- Environment for GetAndVerifyLatestKeyBackupVersion: the machine
identity and the collaborator calls it makes. -/
structure VerifyEnv where
  userID : String
  /-- Client.GetKeyBackupLatestVersion. -/
  getKeyBackupLatestVersion : Except String RespRoomKeysVersion
  /-- GetOwnCrossSigningPublicKeys: none when the keys are not cached,
  otherwise the master key. -/
  crossSigningMasterKey : Option String
  /-- CryptoStore.GetDevice for the own user, keyed by device id. -/
  getDevice : String → Except String (Option Device)
  /-- IsDeviceTrusted. -/
  isDeviceTrusted : Device → Bool
  /-- signatures.VerifySignatureJSON over the auth data, for
  (userID, keyName, key); .ok false and .error both make the loop
  continue. -/
  verifySignatureJSON : MegolmAuthData → String → String → String →
    Except String Bool

/-- keybackup.go lines 88-100: resolve a signature key name to the
verification key: the master cross-signing key directly, otherwise a
known and trusted device signing key; none means the loop continues,
an error aborts the whole call. -/
def resolveSigningKey (env : VerifyEnv) (masterKey : String)
    (keyName : String) : Except String (Option String) :=
  if keyName = masterKey then .ok (some masterKey)
  else
    match env.getDevice keyName with
    | .error e => .error e
    | .ok none => .ok none
    | .ok (some device) =>
      if env.isDeviceTrusted device then .ok (some device.SigningKey)
      else .ok none

/-- keybackup.go lines 79-112: the signature loop.  Returns whether some
signature verified; a device-store error aborts. -/
def signatureLoop (env : VerifyEnv) (masterKey : String)
    (authData : MegolmAuthData) : List KeyID → Except String Bool
  | [] => .ok false
  | keyID :: rest =>
    if keyID.alg ≠ "ed25519" then signatureLoop env masterKey authData rest
    else
      match resolveSigningKey env masterKey keyID.name with
      | .error e =>
        .error ("failed to get device " ++ env.userID ++ "/" ++
          keyID.name ++ " from store: " ++ e)
      | .ok none => signatureLoop env masterKey authData rest
      | .ok (some key) =>
        match env.verifySignatureJSON authData env.userID keyID.name key with
        | .ok true => .ok true
        | .ok false => signatureLoop env masterKey authData rest
        | .error _ => signatureLoop env masterKey authData rest

/-- keybackup.go lines 36-118: GetAndVerifyLatestKeyBackupVersion.
The private recovery key is modelled by the public key derived from it
(line 57 only ever uses megolmBackupKey through that derivation); NOTE:
the source derives the public key on line 57 unconditionally, before the
nil check on line 58, so a nil megolmBackupKey is a nil pointer
dereference at runtime, modelled as `GoResult.panicked`. -/
def GetAndVerifyLatestKeyBackupVersion (env : VerifyEnv)
    (megolmBackupKey : Option String) : GoResult RespRoomKeysVersion :=
  match env.getKeyBackupLatestVersion with
  | .error e => .err e
  | .ok versionInfo =>
    if versionInfo.Algorithm ≠ KeyBackupAlgorithmMegolmBackupV1 then
      .err ("unsupported key backup algorithm: " ++ versionInfo.Algorithm)
    else
      match megolmBackupKey with
      | none =>
        .panicked "runtime error: invalid memory address or nil pointer dereference"
      | some derivedPublicKey =>
        if versionInfo.AuthData.PublicKey = derivedPublicKey then
          .ok versionInfo
        else
          match versionInfo.AuthData.Signatures.lookup env.userID with
          | none =>
            .err ("no signature from user " ++ env.userID ++
              " found in key backup")
          | some userSignatures =>
            match env.crossSigningMasterKey with
            | none => .err "cross-signing public keys not cached"
            | some masterKey =>
              match signatureLoop env masterKey versionInfo.AuthData
                  userSignatures with
              | .error e => .err e
              | .ok true => .ok versionInfo
              | .ok false =>
                .err ("no valid signature from user " ++ env.userID ++
                  " found in key backup")

/-- The room encryption configuration read from the state store
(event.EncryptionEventContent, the two fields keybackup.go uses). -/
structure EncryptionEventContent where
  RotationPeriodMillis : Nat
  RotationPeriodMessages : Nat
  deriving DecidableEq, Repr

/-- The part of the imported libolm inbound group session that
keybackup.go queries: ID() and FirstKnownIndex(). -/
structure IGSInternal where
  id : String
  firstKnownIndex : Nat
  deriving DecidableEq, Repr

/-- crypto.InboundGroupSession, the fields populated by
ImportRoomKeyFromBackup (ReceivedAt, a wall-clock timestamp, is
omitted). -/
structure InboundGroupSession where
  Internal : IGSInternal
  SigningKey : String
  SenderKey : String
  RoomID : String
  ForwardingChains : List String
  id : String
  MaxAge : Nat
  MaxMessages : Nat
  KeyBackupVersion : String
  deriving DecidableEq, Repr

/-- backup.MegolmSessionData, the fields ImportRoomKeyFromBackup reads. -/
structure MegolmSessionData where
  Algorithm : String
  SessionKey : Bytes
  SenderClaimedEd25519 : String
  SenderKey : String
  ForwardingKeyChain : List String
  deriving DecidableEq, Repr

/-- Environment for ImportRoomKeyFromBackup: the collaborator calls. -/
structure ImportEnv where
  /-- olm.InboundGroupSessionImport. -/
  inboundGroupSessionImport : Bytes → Except String IGSInternal
  /-- StateStore.GetEncryptionEvent. -/
  getEncryptionEvent : String → Except String (Option EncryptionEventContent)
  /-- CryptoStore.PutGroupSession. -/
  putGroupSession : InboundGroupSession → Except String Unit

/-- keybackup.go lines 157-209: ImportRoomKeyFromBackup.  The second
component of the result records every PutGroupSession call made, so that
persistence (or its absence) is visible in the model.  MaxAge is kept in
milliseconds: the source multiplies RotationPeriodMillis into a Duration
and stores Milliseconds() of it, which round-trips to the same number. -/
def ImportRoomKeyFromBackup (env : ImportEnv) (version roomID sessionID :
    String) (keyBackupData : MegolmSessionData) :
    Except String InboundGroupSession × List InboundGroupSession :=
  if keyBackupData.Algorithm ≠ AlgorithmMegolmV1 then
    (.error ("ignoring room key in backup with weird algorithm " ++
      keyBackupData.Algorithm), [])
  else
    match env.inboundGroupSessionImport keyBackupData.SessionKey with
    | .error e =>
      (.error ("failed to import inbound group session: " ++ e), [])
    | .ok igsInternal =>
      if igsInternal.id ≠ sessionID then
        (.error "mismatched session ID while creating inbound group session from key backup",
         [])
      else
        let config :=
          match env.getEncryptionEvent roomID with
          | .error _ => (0, 0)
          | .ok none => (0, 0)
          | .ok (some c) => (c.RotationPeriodMillis, c.RotationPeriodMessages)
        let igs : InboundGroupSession :=
          { Internal := igsInternal
            SigningKey := keyBackupData.SenderClaimedEd25519
            SenderKey := keyBackupData.SenderKey
            RoomID := roomID
            ForwardingChains :=
              keyBackupData.ForwardingKeyChain ++ [keyBackupData.SenderKey]
            id := sessionID
            MaxAge := config.1
            MaxMessages := config.2
            KeyBackupVersion := version }
        match env.putGroupSession igs with
        | .error e =>
          (.error ("failed to store new inbound group session: " ++ e), [igs])
        | .ok _ => (.ok igs, [igs])

/-- Environment for GetAndStoreKeyBackup: the fetched payload as a list
of rooms, each with a list of sessions holding per-session ciphertext,
plus the decryption call (SessionData.Decrypt with the caller-supplied
backup key) and the import collaborators. -/
structure StoreEnv where
  /-- Client.GetKeyBackup. -/
  getKeyBackup : Except String (List (String × List (String × Bytes)))
  /-- backup.EncryptedSessionData.Decrypt with the megolm backup key. -/
  decryptSessionData : Bytes → Except String MegolmSessionData
  importEnv : ImportEnv

/-- Whether one (sessionID, ciphertext) entry of a room imports
successfully: its ciphertext decrypts and the import call returns ok. -/
def entryImported (env : StoreEnv) (version roomID : String)
    (entry : String × Bytes) : Bool :=
  match env.decryptSessionData entry.2 with
  | .error _ => false
  | .ok sessionData =>
    match (ImportRoomKeyFromBackup env.importEnv version roomID entry.1
        sessionData).1 with
    | .error _ => false
    | .ok _ => true

/-- keybackup.go lines 131-146: the body of the inner loop, threading the
(imported, failed) counters. -/
def processBackupSession (env : StoreEnv) (version roomID : String)
    (acc : Nat × Nat) (entry : String × Bytes) : Nat × Nat :=
  if entryImported env version roomID entry then (acc.1 + 1, acc.2)
  else (acc.1, acc.2 + 1)

/-- keybackup.go lines 120-155: GetAndStoreKeyBackup.  Returns the Go
error result together with the final (imported, failed) counters, which
the source only logs. -/
def GetAndStoreKeyBackup (env : StoreEnv) (version : String) :
    Except String Unit × Nat × Nat :=
  match env.getKeyBackup with
  | .error e => (.error e, 0, 0)
  | .ok keys =>
    (.ok (), keys.foldl
      (fun acc room =>
        room.2.foldl (processBackupSession env version room.1) acc)
      (0, 0))

/-! ## Helper lemmas for the pickle codec -/

theorem pickleBytes_of_le (v t : Bytes) (h : v.length ≤ t.length) :
    PickleBytes v t = (v.length, v ++ t.drop v.length) := by
  simp [PickleBytes, Nat.min_eq_left h, List.take_of_length_le h]

theorem curvePickle_exact (c t : Bytes) (hc : c.length = 32)
    (ht : 32 ≤ t.length) :
    Curve25519PublicKey.PickleLibOlm c t = .ok (32, c ++ t.drop 32) := by
  unfold Curve25519PublicKey.PickleLibOlm Curve25519PubKeyLength
  rw [if_neg (by omega), if_neg (by omega)]
  rw [pickleBytes_of_le c t (by omega), hc]

theorem uint32BE_length (v : Nat) : (uint32BE v).length = 4 := rfl

theorem uint32BE_decode (v : Nat) (hv : v < 2 ^ 32) (rest : Bytes) :
    uint32BEDecode (uint32BE v ++ rest) = v := by
  simp only [uint32BEDecode, uint32BE, List.cons_append, List.nil_append,
    List.take_succ_cons, List.take_zero, List.foldl]
  omega

theorem chainKey_pickle_ok (c : chainKey) (t : Bytes)
    (hc : c.Key.length = 32) (ht : 36 ≤ t.length) :
    c.PickleLibOlm t = .ok (36, c.Key ++ uint32BE c.Index ++ t.drop 36) := by
  unfold chainKey.PickleLibOlm
  rw [if_neg (by unfold chainKeyPickleLength Curve25519PubKeyLength PickleUInt32Length; omega)]
  rw [curvePickle_exact c.Key t hc (by omega)]
  simp only [PickleUInt32]
  rw [List.drop_left' hc, List.take_left' hc, List.drop_drop]
  simp [List.append_assoc]

theorem chainKey_unpickle_ok (r0 c : chainKey) (rest : Bytes)
    (hc : c.Key.length = 32) (hi : c.Index < 2 ^ 32) :
    r0.UnpickleLibOlm (c.Key ++ (uint32BE c.Index ++ rest)) = (c, .ok 36) := by
  unfold chainKey.UnpickleLibOlm Curve25519PublicKey.UnpickleLibOlm
    UnpickleBytes Curve25519PubKeyLength
  rw [if_neg (by simp [List.length_append, hc])]
  simp only [List.take_left' hc, List.drop_left' hc]
  unfold UnpickleUInt32
  rw [if_neg (by simp [List.length_append, uint32BE_length])]
  rw [uint32BE_decode c.Index hi rest]

/-! ## Claim theorems: pickle codec and chain advance -/

/-- C6: for every chainKey with a 32-byte key and a uint32 index, and
every target of at least the declared chain-key pickle length,
PickleLibOlm succeeds writing exactly 36 bytes (the 32-byte key followed
by the 4-byte big-endian index), and UnpickleLibOlm applied to those
bytes (from any starting receiver) returns the original chainKey. -/
theorem chainKey_pickle_roundtrip (c : chainKey) (t : Bytes)
    (hc : c.Key.length = 32) (hi : c.Index < 2 ^ 32)
    (ht : chainKeyPickleLength ≤ t.length) :
    c.PickleLibOlm t = .ok (36, c.Key ++ uint32BE c.Index ++ t.drop 36) ∧
    ∀ r0 : chainKey,
      r0.UnpickleLibOlm (c.Key ++ uint32BE c.Index ++ t.drop 36) =
        (c, .ok 36) := by
  have ht36 : 36 ≤ t.length := ht
  refine ⟨chainKey_pickle_ok c t hc ht36, fun r0 => ?_⟩
  rw [List.append_assoc]
  exact chainKey_unpickle_ok r0 c (t.drop 36) hc hi

/-- C6 witness: the round trip evaluated at a concrete chain key and
target buffer. -/
theorem chainKey_pickle_roundtrip_witness :
    chainKey.PickleLibOlm { Index := 5, Key := List.replicate 32 2 }
        (List.replicate 40 7) =
      .ok (36, List.replicate 32 2 ++ uint32BE 5 ++
        (List.replicate 40 7).drop 36) ∧
    ∀ r0 : chainKey,
      r0.UnpickleLibOlm (List.replicate 32 2 ++ uint32BE 5 ++
          (List.replicate 40 7).drop 36) =
        ({ Index := 5, Key := List.replicate 32 2 }, .ok 36) :=
  chainKey_pickle_roundtrip { Index := 5, Key := List.replicate 32 2 }
    (List.replicate 40 7) (by decide) (by decide) (by decide)

/-- C7: chainKey.advance replaces the key with the HMAC-SHA256 of the
old key over the single byte 0x02 and increments the 32-bit index; it is
a total function (no error case), deterministic (equal states advance to
equal states), and two advances change the index. -/
theorem chainKey_advance_spec (hmac : Bytes → Bytes → Bytes)
    (c : chainKey) (hi : c.Index < 2 ^ 32) :
    (c.advance hmac).Key = hmac c.Key [chainKeySeed] ∧
    (c.advance hmac).Index = (c.Index + 1) % 2 ^ 32 ∧
    (∀ c' : chainKey, c' = c → c'.advance hmac = c.advance hmac) ∧
    ((c.advance hmac).advance hmac).Index ≠ c.Index := by
  refine ⟨rfl, rfl, fun c' h => by rw [h], ?_⟩
  simp only [chainKey.advance]
  omega

/-- C7 witness: the advance law evaluated at a concrete chain key with a
concrete stand-in for the HMAC parameter. -/
theorem chainKey_advance_spec_witness :
    (chainKey.advance (fun k m => k ++ m)
        { Index := 3, Key := [1, 2] }).Key = [1, 2] ++ [chainKeySeed] ∧
    (chainKey.advance (fun k m => k ++ m)
        { Index := 3, Key := [1, 2] }).Index = (3 + 1) % 2 ^ 32 ∧
    (∀ c' : chainKey, c' = { Index := 3, Key := [1, 2] } →
      c'.advance (fun k m => k ++ m) =
        chainKey.advance (fun k m => k ++ m) { Index := 3, Key := [1, 2] }) ∧
    ((chainKey.advance (fun k m => k ++ m)
        { Index := 3, Key := [1, 2] }).advance
          (fun k m => k ++ m)).Index ≠ 3 :=
  chainKey_advance_spec (fun k m => k ++ m) { Index := 3, Key := [1, 2] }
    (by decide)

/-- C10: advancing a chainKey whose index is 4294967295 (the maximum
uint32) wraps the index to 0 under modular 32-bit increment; advance is a
total function, so it signals no error for any index value. -/
theorem chainKey_advance_wraps (hmac : Bytes → Bytes → Bytes)
    (key : Bytes) :
    (chainKey.advance hmac { Index := 4294967295, Key := key }).Index = 0 ∧
    ∀ i : Nat, (chainKey.advance hmac { Index := i, Key := key }).Index =
      (i + 1) % 2 ^ 32 :=
  ⟨by simp [chainKey.advance], fun _ => rfl⟩

/-- C8: pickling a messageKey whose key is not exactly 32 bytes long
into a sufficiently large target succeeds and writes a 32-byte all-zero
placeholder in place of the key material, followed by the 4-byte
big-endian index. -/
theorem messageKey_pickle_zero_placeholder (m : messageKey) (t : Bytes)
    (hm : m.Key.length ≠ 32)
    (ht : messageKeyPickleLength ≤ t.length) :
    m.PickleLibOlm t =
      .ok (36, List.replicate 32 0 ++ uint32BE m.Index ++ t.drop 36) := by
  have ht36 : 36 ≤ t.length := ht
  unfold messageKey.PickleLibOlm
  rw [if_neg (by unfold messageKeyPickleLength messageKeyLength PickleUInt32Length; omega)]
  rw [if_pos (by unfold messageKeyLength; exact hm)]
  rw [pickleBytes_of_le (List.replicate messageKeyLength 0) t
    (by simp [messageKeyLength]; omega)]
  simp only [List.length_replicate, PickleUInt32]
  rw [List.drop_left' (by simp [messageKeyLength]),
    List.take_left' (by simp [messageKeyLength]), List.drop_drop]
  simp only [messageKeyLength]
  norm_num [List.append_assoc]

/-- C8 witness: the placeholder behaviour evaluated at a concrete
messageKey with a 2-byte key. -/
theorem messageKey_pickle_zero_placeholder_witness :
    messageKey.PickleLibOlm { Index := 9, Key := [1, 2] }
        (List.replicate 36 7) =
      .ok (36, List.replicate 32 0 ++ uint32BE 9 ++
        (List.replicate 36 7).drop 36) :=
  messageKey_pickle_zero_placeholder { Index := 9, Key := [1, 2] }
    (List.replicate 36 7) (by decide) (by decide)

/-- C9 counterexample: a 32-byte buffer is long enough for the key field
of a chainKey but truncated before the index; UnpickleLibOlm returns an
error, yet the receiver's Key field has been overwritten, so the claim
that a decode error leaves no field modified is false. -/
theorem chainKey_unpickle_partial_mutation :
    (chainKey.UnpickleLibOlm { Index := 7, Key := List.replicate 32 5 }
        (List.replicate 32 9)).2 = .error .valueTooShort ∧
    (chainKey.UnpickleLibOlm { Index := 7, Key := List.replicate 32 5 }
        (List.replicate 32 9)).1 ≠
      { Index := 7, Key := List.replicate 32 5 } := by
  exact ⟨rfl, by decide⟩

/-- C9 amended: a chainKey decode error aborts the call with an error
exactly when the buffer is shorter than 36 bytes, and it never touches
fields past the failure point: a buffer shorter than 32 bytes leaves the
receiver fully unchanged, while a buffer of 32 to 35 bytes leaves the
Index unchanged but has already overwritten the Key with the first 32
buffer bytes. -/
theorem chainKey_unpickle_error_shape (r : chainKey) (value : Bytes) :
    ((r.UnpickleLibOlm value).2 = .error .valueTooShort ↔
      value.length < 36) ∧
    (value.length < 32 → r.UnpickleLibOlm value = (r, .error .valueTooShort)) ∧
    (32 ≤ value.length → value.length < 36 →
      r.UnpickleLibOlm value =
        ({ r with Key := value.take 32 }, .error .valueTooShort)) := by
  by_cases h32 : value.length < 32
  · have hval : r.UnpickleLibOlm value = (r, .error .valueTooShort) := by
      simp [chainKey.UnpickleLibOlm, Curve25519PublicKey.UnpickleLibOlm,
        UnpickleBytes, Curve25519PubKeyLength, h32]
    rw [hval]
    exact ⟨by simp; omega, fun _ => rfl, by omega⟩
  · by_cases h36 : value.length < 36
    · have h4 : value.length - 32 < 4 := by omega
      have hval : r.UnpickleLibOlm value =
          ({ r with Key := value.take 32 }, .error .valueTooShort) := by
        simp [chainKey.UnpickleLibOlm, Curve25519PublicKey.UnpickleLibOlm,
          UnpickleBytes, UnpickleUInt32, Curve25519PubKeyLength, h32, h4]
      rw [hval]
      exact ⟨by simp; omega, by omega, fun _ _ => rfl⟩
    · have h4 : ¬value.length - 32 < 4 := by omega
      have hval : (r.UnpickleLibOlm value).2 = .ok 36 := by
        simp [chainKey.UnpickleLibOlm, Curve25519PublicKey.UnpickleLibOlm,
          UnpickleBytes, UnpickleUInt32, Curve25519PubKeyLength, h32, h4]
      rw [hval]
      exact ⟨by simp; omega, by omega, by omega⟩

/-- C9 amended witness: the error shape evaluated on a concrete chainKey
at a 33-byte buffer. -/
theorem chainKey_unpickle_error_shape_witness :
    (33 : Nat) ≤ (List.replicate 33 9 : Bytes).length ∧
    chainKey.UnpickleLibOlm { Index := 7, Key := List.replicate 32 5 }
        (List.replicate 33 9) =
      ({ Index := 7, Key := (List.replicate 33 9 : Bytes).take 32 },
        .error .valueTooShort) := by
  refine ⟨by decide, ?_⟩
  have h := (chainKey_unpickle_error_shape
    { Index := 7, Key := List.replicate 32 5 } (List.replicate 33 9)).2.2
    (by decide) (by decide)
  exact h

/-- C1 counterpart: evaluated at concrete values, receiverChain and
skippedMessageKey PickleLibOlm write the second field at offset 0 over
the first field instead of concatenating the field encodings in
declaration order, and messageKey.UnpickleLibOlm reads the index from
the key bytes, so decode is not the inverse of encode. -/
theorem pickle_concatenation_violated :
    receiverChain.PickleLibOlm
        { RKey := List.replicate 32 1,
          CKey := { Index := 5, Key := List.replicate 32 2 } }
        (List.replicate 68 9) =
      .ok (68, List.replicate 32 2 ++ [0, 0, 0, 5] ++ List.replicate 32 9) ∧
    List.replicate 32 2 ++ [0, 0, 0, 5] ++ List.replicate 32 9 ≠
      List.replicate 32 1 ++ (List.replicate 32 2 ++ [0, 0, 0, 5]) ∧
    (receiverChain.UnpickleLibOlm
        { RKey := [], CKey := { Index := 0, Key := [] } }
        (List.replicate 32 2 ++ [0, 0, 0, 5] ++ List.replicate 32 9)).1 ≠
      { RKey := List.replicate 32 1,
        CKey := { Index := 5, Key := List.replicate 32 2 } } ∧
    skippedMessageKey.PickleLibOlm
        { RKey := List.replicate 32 1,
          MKey := { Index := 1, Key := List.replicate 32 3 } }
        (List.replicate 68 9) =
      .ok (68, List.replicate 32 3 ++ [0, 0, 0, 1] ++ List.replicate 32 9) ∧
    List.replicate 32 3 ++ [0, 0, 0, 1] ++ List.replicate 32 9 ≠
      List.replicate 32 1 ++ (List.replicate 32 3 ++ [0, 0, 0, 1]) ∧
    messageKey.PickleLibOlm { Index := 1, Key := List.replicate 32 3 }
        (List.replicate 36 0) =
      .ok (36, List.replicate 32 3 ++ [0, 0, 0, 1]) ∧
    (messageKey.UnpickleLibOlm { Index := 0, Key := [] }
        (List.replicate 32 3 ++ [0, 0, 0, 1])).1 ≠
      { Index := 1, Key := List.replicate 32 3 } := by
  refine ⟨rfl, by decide, by decide, rfl, by decide, rfl, by decide⟩

/-! ## Helper lemmas for the signature loop -/

/-- A key id the signature loop skips with a warning: a non-ed25519
algorithm, an unknown device, an untrusted device, or a failed
verification.  A device-store error is NOT skipped (it aborts). -/
def signatureSkipped (env : VerifyEnv) (masterKey : String)
    (authData : MegolmAuthData) (k : KeyID) : Bool :=
  if k.alg ≠ "ed25519" then true
  else
    match resolveSigningKey env masterKey k.name with
    | .error _ => false
    | .ok none => true
    | .ok (some key) =>
      match env.verifySignatureJSON authData env.userID k.name key with
      | .ok true => false
      | .ok false => true
      | .error _ => true

theorem signatureLoop_cons_eq (env : VerifyEnv) (masterKey : String)
    (authData : MegolmAuthData) (k : KeyID) (rest : List KeyID) :
    signatureLoop env masterKey authData (k :: rest) =
      if k.alg ≠ "ed25519" then signatureLoop env masterKey authData rest
      else
        match resolveSigningKey env masterKey k.name with
        | .error e =>
          .error ("failed to get device " ++ env.userID ++ "/" ++
            k.name ++ " from store: " ++ e)
        | .ok none => signatureLoop env masterKey authData rest
        | .ok (some key) =>
          match env.verifySignatureJSON authData env.userID k.name key with
          | .ok true => .ok true
          | .ok false => signatureLoop env masterKey authData rest
          | .error _ => signatureLoop env masterKey authData rest := rfl

theorem signatureLoop_cons_skipped (env : VerifyEnv) (masterKey : String)
    (authData : MegolmAuthData) (k : KeyID) (rest : List KeyID)
    (hk : signatureSkipped env masterKey authData k = true) :
    signatureLoop env masterKey authData (k :: rest) =
      signatureLoop env masterKey authData rest := by
  unfold signatureSkipped at hk
  rw [signatureLoop_cons_eq]
  by_cases halg : k.alg ≠ "ed25519"
  · rw [if_pos halg]
  · rw [if_neg halg] at hk
    rw [if_neg halg]
    split
    · rename_i e heq
      rw [heq] at hk
      simp at hk
    · rfl
    · rename_i key heq
      rw [heq] at hk
      simp only [] at hk
      split
      · rename_i hver
        rw [hver] at hk
        simp at hk
      · rfl
      · rfl

theorem signatureLoop_all_skipped (env : VerifyEnv) (masterKey : String)
    (authData : MegolmAuthData) (ks : List KeyID)
    (h : ∀ k ∈ ks, signatureSkipped env masterKey authData k = true) :
    signatureLoop env masterKey authData ks = .ok false := by
  induction ks with
  | nil => rfl
  | cons k rest ih =>
    rw [signatureLoop_cons_skipped env masterKey authData k rest
      (h k (by simp))]
    exact ih fun j hj => h j (by simp [hj])

theorem signatureLoop_first_success (env : VerifyEnv) (masterKey : String)
    (authData : MegolmAuthData) (pre : List KeyID) (k : KeyID)
    (post : List KeyID) (key : String)
    (hpre : ∀ j ∈ pre, signatureSkipped env masterKey authData j = true)
    (halg : k.alg = "ed25519")
    (hres : resolveSigningKey env masterKey k.name = .ok (some key))
    (hver : env.verifySignatureJSON authData env.userID k.name key = .ok true) :
    signatureLoop env masterKey authData (pre ++ k :: post) = .ok true := by
  induction pre with
  | nil =>
    rw [List.nil_append, signatureLoop_cons_eq,
      if_neg (by simp [halg])]
    simp [hres, hver]
  | cons j rest ih =>
    rw [List.cons_append,
      signatureLoop_cons_skipped env masterKey authData j _
        (hpre j (by simp))]
    exact ih fun x hx => hpre x (by simp [hx])

/-! ## Claim theorems: key backup trust and import -/

/-- C2 counterpart: with the backup version fetched and its algorithm
supported, calling GetAndVerifyLatestKeyBackupVersion with a nil
recovery key panics (the source derives the public key from the key on
line 57, before the nil check on line 58) instead of proceeding to the
signature trust path. -/
theorem getAndVerify_nil_key_panics (env : VerifyEnv)
    (vi : RespRoomKeysVersion)
    (hfetch : env.getKeyBackupLatestVersion = .ok vi)
    (halg : vi.Algorithm = KeyBackupAlgorithmMegolmBackupV1) :
    GetAndVerifyLatestKeyBackupVersion env none =
      .panicked "runtime error: invalid memory address or nil pointer dereference" := by
  unfold GetAndVerifyLatestKeyBackupVersion
  simp [hfetch, halg]

/-- Sample version info used by the C2 witness. -/
def viSample : RespRoomKeysVersion :=
  { Algorithm := KeyBackupAlgorithmMegolmBackupV1
    AuthData := { PublicKey := "pub", Signatures := [] }
    Version := "1" }

/-- Sample verification environment used by the C2 witness. -/
def verifyEnvSample : VerifyEnv :=
  { userID := "@user:example.org"
    getKeyBackupLatestVersion := .ok viSample
    crossSigningMasterKey := none
    getDevice := fun _ => .ok none
    isDeviceTrusted := fun _ => false
    verifySignatureJSON := fun _ _ _ _ => .ok false }

/-- C2 witness: the nil-key panic evaluated at a concrete environment. -/
theorem getAndVerify_nil_key_panics_witness :
    GetAndVerifyLatestKeyBackupVersion verifyEnvSample none =
      .panicked "runtime error: invalid memory address or nil pointer dereference" :=
  getAndVerify_nil_key_panics verifyEnvSample viSample rfl rfl

/-- C4: with a fetched supported backup whose auth_data public key does
not match the supplied recovery key, cross-signing keys cached, and the
signature entries of the backup owner at hand: if every ed25519 entry is
skipped (non-ed25519, unknown device, untrusted device, or failed
verification), the call fails with the backup-not-trusted error; and the
first entry that resolves to a key and verifies short-circuits the loop,
making the backup trusted, whatever follows it. -/
theorem getAndVerify_signature_trust (env : VerifyEnv)
    (vi : RespRoomKeysVersion) (derived : String) (keyIDs : List KeyID)
    (masterKey : String)
    (hfetch : env.getKeyBackupLatestVersion = .ok vi)
    (halg : vi.Algorithm = KeyBackupAlgorithmMegolmBackupV1)
    (hne : vi.AuthData.PublicKey ≠ derived)
    (hsig : vi.AuthData.Signatures.lookup env.userID = some keyIDs)
    (hcsk : env.crossSigningMasterKey = some masterKey) :
    ((∀ k ∈ keyIDs, signatureSkipped env masterKey vi.AuthData k = true) →
      GetAndVerifyLatestKeyBackupVersion env (some derived) =
        .err ("no valid signature from user " ++ env.userID ++
          " found in key backup")) ∧
    (∀ (pre : List KeyID) (k : KeyID) (post : List KeyID) (key : String),
      keyIDs = pre ++ k :: post →
      (∀ j ∈ pre, signatureSkipped env masterKey vi.AuthData j = true) →
      k.alg = "ed25519" →
      resolveSigningKey env masterKey k.name = .ok (some key) →
      env.verifySignatureJSON vi.AuthData env.userID k.name key = .ok true →
      GetAndVerifyLatestKeyBackupVersion env (some derived) = .ok vi) := by
  have hmain : GetAndVerifyLatestKeyBackupVersion env (some derived) =
      match signatureLoop env masterKey vi.AuthData keyIDs with
      | .error e => .err e
      | .ok true => .ok vi
      | .ok false =>
        .err ("no valid signature from user " ++ env.userID ++
          " found in key backup") := by
    unfold GetAndVerifyLatestKeyBackupVersion
    simp [hfetch, halg, hne, hsig, hcsk]
  constructor
  · intro hall
    rw [hmain, signatureLoop_all_skipped env masterKey vi.AuthData keyIDs hall]
  · intro pre k post key heq hpre hkalg hkres hkver
    rw [hmain, heq, signatureLoop_first_success env masterKey vi.AuthData
      pre k post key hpre hkalg hkres hkver]

/-- Sample auth data with one non-ed25519 entry and one ed25519 master
key entry, used by the C4 witness. -/
def authDataSample : MegolmAuthData :=
  { PublicKey := "pub"
    Signatures := [("@user:example.org",
      [{ alg := "rsa", name := "DEVICEX" },
       { alg := "ed25519", name := "master" }])] }

/-- Sample version info used by the C4 witness. -/
def viSample4 : RespRoomKeysVersion :=
  { Algorithm := KeyBackupAlgorithmMegolmBackupV1
    AuthData := authDataSample
    Version := "2" }

/-- Sample verification environment used by the C4 witness: only the
master-key signature verifies. -/
def verifyEnvSample4 : VerifyEnv :=
  { userID := "@user:example.org"
    getKeyBackupLatestVersion := .ok viSample4
    crossSigningMasterKey := some "master"
    getDevice := fun _ => .ok none
    isDeviceTrusted := fun _ => false
    verifySignatureJSON := fun _ _ n _ =>
      if n = "master" then .ok true else .ok false }

/-- C4 witness: the master-key signature short-circuits the loop after a
skipped non-ed25519 entry, trusting the backup. -/
theorem getAndVerify_signature_trust_witness :
    GetAndVerifyLatestKeyBackupVersion verifyEnvSample4 (some "otherkey") =
      .ok viSample4 :=
  (getAndVerify_signature_trust verifyEnvSample4 viSample4 "otherkey"
      [{ alg := "rsa", name := "DEVICEX" },
       { alg := "ed25519", name := "master" }] "master"
      rfl rfl (by decide) rfl rfl).2
    [{ alg := "rsa", name := "DEVICEX" }]
    { alg := "ed25519", name := "master" } [] "master"
    rfl (by decide) rfl rfl rfl

/-- C3: a backup entry whose session key imports to a session whose
derived session ID differs from the claimed one makes
ImportRoomKeyFromBackup return the session-ID-mismatch error, and
PutGroupSession is never called (the recorded store-call list is
empty). -/
theorem importRoomKey_mismatch_not_persisted (env : ImportEnv)
    (version roomID sessionID : String) (kbd : MegolmSessionData)
    (igsInt : IGSInternal)
    (halg : kbd.Algorithm = AlgorithmMegolmV1)
    (himp : env.inboundGroupSessionImport kbd.SessionKey = .ok igsInt)
    (hne : igsInt.id ≠ sessionID) :
    ImportRoomKeyFromBackup env version roomID sessionID kbd =
      (.error "mismatched session ID while creating inbound group session from key backup",
       []) := by
  unfold ImportRoomKeyFromBackup
  simp [halg, himp, hne]

/-- Sample import environment used by the C3 and C5 witnesses: session
key [1] imports as session "sess1" and everything stores fine. -/
def importEnvSample : ImportEnv :=
  { inboundGroupSessionImport := fun sk =>
      if sk = [1] then .ok { id := "sess1", firstKnownIndex := 0 }
      else .error "bad session key"
    getEncryptionEvent := fun _ => .ok none
    putGroupSession := fun _ => .ok () }

/-- Sample session data used by the C3 and C5 witnesses. -/
def sessionDataSample : MegolmSessionData :=
  { Algorithm := AlgorithmMegolmV1
    SessionKey := [1]
    SenderClaimedEd25519 := "edkey"
    SenderKey := "senderkey"
    ForwardingKeyChain := [] }

/-- C3 witness: importing under a claimed session ID different from the
derived one fails and stores nothing. -/
theorem importRoomKey_mismatch_not_persisted_witness :
    ImportRoomKeyFromBackup importEnvSample "v1" "!room:example.org"
        "othersession" sessionDataSample =
      (.error "mismatched session ID while creating inbound group session from key backup",
       []) :=
  importRoomKey_mismatch_not_persisted importEnvSample "v1"
    "!room:example.org" "othersession" sessionDataSample
    { id := "sess1", firstKnownIndex := 0 } rfl rfl (by decide)

/-! ## Counting lemmas for GetAndStoreKeyBackup -/

/-- Number of backup entries that decrypt and import successfully. -/
def importedCount (env : StoreEnv) (version : String)
    (keys : List (String × List (String × Bytes))) : Nat :=
  (keys.map fun room => room.2.countP (entryImported env version room.1)).sum

/-- Number of backup entries whose decryption or import fails. -/
def failedCount (env : StoreEnv) (version : String)
    (keys : List (String × List (String × Bytes))) : Nat :=
  (keys.map fun room =>
    room.2.countP fun e => !entryImported env version room.1 e).sum

/-- Total number of (room, session) entries in a backup payload. -/
def backupEntryCount (keys : List (String × List (String × Bytes))) : Nat :=
  (keys.map fun room => room.2.length).sum

theorem processBackupSession_foldl (env : StoreEnv)
    (version roomID : String) (sessions : List (String × Bytes)) :
    ∀ acc : Nat × Nat,
      sessions.foldl (processBackupSession env version roomID) acc =
        (acc.1 + sessions.countP (entryImported env version roomID),
         acc.2 + sessions.countP fun e => !entryImported env version roomID e) := by
  induction sessions with
  | nil => intro acc; simp
  | cons e rest ih =>
    intro acc
    rw [List.foldl_cons, ih]
    unfold processBackupSession
    by_cases he : entryImported env version roomID e
    · simp [he, List.countP_cons]
      omega
    · simp [he, List.countP_cons]
      omega

theorem getAndStore_foldl (env : StoreEnv) (version : String)
    (keys : List (String × List (String × Bytes))) :
    ∀ acc : Nat × Nat,
      keys.foldl
        (fun acc room =>
          room.2.foldl (processBackupSession env version room.1) acc) acc =
        (acc.1 + importedCount env version keys,
         acc.2 + failedCount env version keys) := by
  induction keys with
  | nil => intro acc; simp [importedCount, failedCount]
  | cons room rest ih =>
    intro acc
    rw [List.foldl_cons, processBackupSession_foldl, ih]
    simp [importedCount, failedCount]
    omega

theorem counts_add (env : StoreEnv) (version : String)
    (keys : List (String × List (String × Bytes))) :
    importedCount env version keys + failedCount env version keys =
      backupEntryCount keys := by
  induction keys with
  | nil => simp [importedCount, failedCount, backupEntryCount]
  | cons room rest ih =>
    simp only [importedCount, failedCount, backupEntryCount,
      List.map_cons, List.sum_cons] at ih ⊢
    have h1 := List.length_eq_countP_add_countP
      (entryImported env version room.1) room.2
    have h2 : room.2.countP
        (fun a => decide ¬(entryImported env version room.1 a = true)) =
        room.2.countP (fun e => !entryImported env version room.1 e) := by
      apply List.countP_congr
      intro a _
      cases entryImported env version room.1 a <;> simp
    omega

/-- C5: GetAndStoreKeyBackup propagates a payload-fetch failure as its
own error with nothing counted; with the payload fetched it always
returns success, counting every entry exactly once: entries that decrypt
and import are the imported count, entries failing either step are the
failed count, and the two counts add up to the total number of
entries. -/
theorem getAndStore_counts (env : StoreEnv) (version : String) :
    (∀ e, env.getKeyBackup = .error e →
      GetAndStoreKeyBackup env version = (.error e, 0, 0)) ∧
    (∀ keys, env.getKeyBackup = .ok keys →
      GetAndStoreKeyBackup env version =
        (.ok (), importedCount env version keys,
          failedCount env version keys) ∧
      importedCount env version keys + failedCount env version keys =
        backupEntryCount keys) := by
  constructor
  · intro e he
    unfold GetAndStoreKeyBackup
    simp [he]
  · intro keys hk
    refine ⟨?_, counts_add env version keys⟩
    unfold GetAndStoreKeyBackup
    simp only [hk]
    rw [getAndStore_foldl env version keys (0, 0)]
    simp

/-- Sample store environment used by the C5 witness: one room with two
sessions, of which one decrypts and imports while the other fails to
decrypt. -/
def storeEnvSample : StoreEnv :=
  { getKeyBackup := .ok [("!room:example.org",
      [("sess1", [1]), ("sessbad", [2])])]
    decryptSessionData := fun b =>
      if b = [1] then .ok sessionDataSample else .error "decryption failed"
    importEnv := importEnvSample }

/-- C5 witness: a payload with one good and one bad entry imports one,
fails one, and the call as a whole succeeds. -/
theorem getAndStore_counts_witness :
    GetAndStoreKeyBackup storeEnvSample "v1" = (.ok (), 1, 1) := by
  have h := ((getAndStore_counts storeEnvSample "v1").2
    [("!room:example.org", [("sess1", [1]), ("sessbad", [2])])] rfl).1
  rw [h]
  rfl

end Mautrix
